import Mathlib

/-!
Shallow embedding of the sfconversions geometry codec
(src/fromsf.rs, src/tosf.rs, src/lib.rs, src/geom.rs, src/vctrs.rs).

Coordinates are f64 values in the source; no arithmetic is ever performed on
them (they pass through unmodified), so they are modelled by `ℚ`, which keeps
every definition executable and every equality decidable.

R objects (`Robj`) are modelled by the shapes the codec actually touches:
the NULL object, a doubles vector, a numeric matrix (column-major data with
explicit dimensions, exactly as R stores matrices and as extendr's
`RMatrix` indexes them: `x[[i, j]] = data[j * nrow + i]`), and a generic
list.  Every non-NULL object carries its `class` attribute.

Rust panics (`unwrap`, `panic!`, out-of-bounds indexing) are modelled by
`Option`: `none` is an aborted computation.  The fallible decoder
`sfg_to_geom` returns `Option (Except String Geom)`: `none` models a panic,
`some (.error m)` models `Err(m)`, `some (.ok g)` models `Ok(g)`.
-/

namespace Sfconversions

/-- Coordinate values: f64 in the source, modelled by `ℚ` (values only pass
through the codec, no arithmetic is performed on them). -/
abbrev f64 := ℚ

/-- geo_types `Coord`: an (x, y) pair. -/
structure Coord where
  x : f64
  y : f64
deriving DecidableEq, Repr

/-- An R numeric matrix as extendr's `RMatrix<f64>` sees it: explicit
dimensions and column-major data, so `x[[i, j]] = data[j * nrow + i]`. -/
structure RMatrix where
  nrow : Nat
  ncol : Nat
  data : List f64
deriving DecidableEq, Repr

/-- The `x[[i, j]]` indexing of an `RMatrix` (column-major). -/
def RMatrix.entry (m : RMatrix) (i j : Nat) : f64 :=
  m.data.getD (j * m.nrow + i) 0

/-- geo_types `Polygon`: one exterior ring plus interior rings.  Rings are
stored as raw coordinate sequences (the `LineString` wrapper adds nothing). -/
structure PolygonRep where
  exterior : List Coord
  interiors : List (List Coord)
deriving DecidableEq, Repr

/-- geo_types `LineString::is_closed`: first coordinate equals last
(vacuously true of the empty sequence). -/
def isClosedRing (l : List Coord) : Bool :=
  decide (l.head? = l.getLast?)

/-- geo_types `LineString::close`: append the first coordinate when the ring
is not closed (a no-op on closed or empty rings). -/
def closeRing (l : List Coord) : List Coord :=
  if isClosedRing l then l
  else
    match l.head? with
    | some c => l ++ [c]
    | none => l

/-- geo_types `Polygon::new(exterior, interiors)`: stores the rings after
closing each of them. -/
def Polygon_new (exterior : List Coord) (interiors : List (List Coord)) : PolygonRep :=
  ⟨closeRing exterior, interiors.map closeRing⟩

/-- A `PolygonRep` all of whose rings are closed — the invariant geo_types
`Polygon::new` establishes, so every polygon value the library builds
satisfies it. -/
def PolygonRep.ringsClosed (p : PolygonRep) : Bool :=
  isClosedRing p.exterior && p.interiors.all isClosedRing

/-- geo_types `Geometry` enum (src/geom.rs wraps it).  `Point` carries a
bare `Coord` (the geo_types `Point` newtype adds nothing); `MultiPoint`,
`LineString` and `MultiLineString` carry coordinate sequences likewise. -/
inductive Geometry where
  | point (c : Coord)
  | line (start stop : Coord)
  | lineString (coords : List Coord)
  | polygon (p : PolygonRep)
  | multiPoint (points : List Coord)
  | multiLineString (lines : List (List Coord))
  | multiPolygon (polygons : List PolygonRep)
  | geometryCollection (geoms : List Geometry)
  | rect (lo hi : Coord)
  | triangle (a b c : Coord)

/-- src/geom.rs `Geom`: a single-field wrapper around a `Geometry`. -/
structure Geom where
  geom : Geometry

/-- The six variants the codec supports (the arms of `to_sfg` /
`sfg_to_geom` other than the catch-all). -/
def Geom.isSupported (g : Geom) : Bool :=
  match g.geom with
  | .point _ => true
  | .multiPoint _ => true
  | .lineString _ => true
  | .multiLineString _ => true
  | .polygon _ => true
  | .multiPolygon _ => true
  | _ => false

/-- All polygon rings inside the geometry are closed — the invariant
geo_types `Polygon::new` maintains for every constructible polygon. -/
def Geom.ringsClosed (g : Geom) : Bool :=
  match g.geom with
  | .polygon p => p.ringsClosed
  | .multiPolygon ps => ps.all PolygonRep.ringsClosed
  | _ => true

/-- The prefix of `format!("{:?}", geometry)` before the first `(`:
the `Geometry` enum's variant name. -/
def variantName : Geometry → String
  | .point _ => "Point"
  | .line _ _ => "Line"
  | .lineString _ => "LineString"
  | .polygon _ => "Polygon"
  | .multiPoint _ => "MultiPoint"
  | .multiLineString _ => "MultiLineString"
  | .multiPolygon _ => "MultiPolygon"
  | .geometryCollection _ => "GeometryCollection"
  | .rect _ _ => "Rect"
  | .triangle _ _ _ => "Triangle"

/-- An R object, restricted to the shapes the codec touches.  Every non-NULL
constructor carries its `class` attribute (empty list = no class set). -/
inductive Robj where
  | null
  | doubles (cls : List String) (vals : List f64)
  | matrix (cls : List String) (m : RMatrix)
  | rlist (cls : List String) (elems : List Robj)

/-- Models `x.class()`: the class attribute (`[]` models an absent attribute, on
which the source's `.unwrap()` panics via the later out-of-bounds index). -/
def Robj.classOf : Robj → List String
  | .null => []
  | .doubles c _ => c
  | .matrix c _ => c
  | .rlist c _ => c

/-- Models `x.as_matrix()` / `RMatrix::<f64>::try_from(x)`: succeeds only on a
numeric matrix. -/
def Robj.as_matrix : Robj → Option RMatrix
  | .matrix _ m => some m
  | _ => none

/-- Models `List::try_from(x)`: succeeds only on a list. -/
def Robj.as_list : Robj → Option (List Robj)
  | .rlist _ e => some e
  | _ => none

/-- Models `Doubles::try_from(x)`: succeeds only on a doubles vector. -/
def Robj.as_doubles : Robj → Option (List f64)
  | .doubles _ v => some v
  | _ => none

/-- Models `Iterator::map(..).collect()` where each element conversion can abort:
`none` as soon as one element aborts, otherwise the list of results. -/
def mapOption (f : α → Option β) : List α → Option (List β)
  | [] => some []
  | a :: rest => (f a).bind fun b => (mapOption f rest).map fun bs => b :: bs

/-- src/fromsf.rs `matrix_to_coords` (the same function is duplicated in
src/lib.rs and src/constructors.rs): panics unless the matrix has exactly 2
columns, then pushes `(x[[i,0]], x[[i,1]])` for each row `i` in order. -/
def matrix_to_coords (x : RMatrix) : Option (List Coord) :=
  if x.ncol ≠ 2 then none
  else
    some ((List.range x.nrow).foldl
      (fun acc i => acc ++ [⟨x.entry i 0, x.entry i 1⟩]) [])

/-- src/fromsf.rs `matrix_to_points`: identical to `matrix_to_coords` except
that each row is wrapped as a `Point` (which carries no extra data, so the
bodies coincide in the model). -/
def matrix_to_points (x : RMatrix) : Option (List Coord) :=
  if x.ncol ≠ 2 then none
  else
    some ((List.range x.nrow).foldl
      (fun acc i => acc ++ [⟨x.entry i 0, x.entry i 1⟩]) [])

/-- src/fromsf.rs `polygon_inner` (its body is also inlined verbatim in the
`"POLYGON"` arms of `sfg_to_geom` and `sfg_to_geometry`): `x[0]` (panics on
an empty list) becomes the exterior ring, elements `1..n` the interior
rings, combined by `Polygon::new`. -/
def polygon_inner (x : List Robj) : Option PolygonRep :=
  match x with
  | [] => none
  | x0 :: rest =>
    (x0.as_matrix).bind fun m0 =>
    (matrix_to_coords m0).bind fun exterior =>
    (mapOption (fun e => e.as_matrix.bind matrix_to_coords) rest).map fun interiors =>
    Polygon_new exterior interiors

/-- The six class names the decoders dispatch on. -/
def supportedTags : List String :=
  ["POINT", "MULTIPOINT", "LINESTRING", "MULTILINESTRING", "POLYGON", "MULTIPOLYGON"]

/-- src/fromsf.rs `sfg_to_geom`: reads the second class tag (`cls2[1]`,
panicking when the class attribute is missing or shorter than 2), then
dispatches on it; an unrecognized tag is the typed `Err` of the catch-all
arm.  `none` models a panic, `some (.error m)` the `Err(m)` result. -/
def sfg_to_geom (x : Robj) : Option (Except String Geom) :=
  match x.classOf[1]? with
  | none => none
  | some cls =>
    if cls = "POINT" then
      match x.as_doubles with
      | none => none
      | some vals =>
        if vals.length < 2 then none
        else some (Except.ok ⟨.point ⟨vals.getD 0 0, vals.getD 1 0⟩⟩)
    else if cls = "MULTIPOINT" then
      match x.as_matrix with
      | none => none
      | some m => (matrix_to_points m).map fun ps => Except.ok ⟨.multiPoint ps⟩
    else if cls = "LINESTRING" then
      match x.as_matrix with
      | none => none
      | some m => (matrix_to_coords m).map fun cs => Except.ok ⟨.lineString cs⟩
    else if cls = "MULTILINESTRING" then
      match x.as_list with
      | none => none
      | some elems =>
        (mapOption (fun e => e.as_matrix.bind matrix_to_coords) elems).map
          fun ls => Except.ok ⟨.multiLineString ls⟩
    else if cls = "POLYGON" then
      match x.as_list with
      | none => none
      | some elems => (polygon_inner elems).map fun p => Except.ok ⟨.polygon p⟩
    else if cls = "MULTIPOLYGON" then
      match x.as_list with
      | none => none
      | some elems =>
        (mapOption (fun e => e.as_list.bind polygon_inner) elems).map
          fun ps => Except.ok ⟨.multiPolygon ps⟩
    else some (Except.error "Null or unsupported geometry type")

/-- src/lib.rs `sfg_to_geometry`: the infallible twin of `sfg_to_geom` —
the same dispatch, except that the catch-all arm returns the degenerate
`Point::new(0.0, 0.0)` instead of an error. -/
def sfg_to_geometry (x : Robj) : Option Geom :=
  match x.classOf[1]? with
  | none => none
  | some cls =>
    if cls = "POINT" then
      match x.as_doubles with
      | none => none
      | some vals =>
        if vals.length < 2 then none
        else some ⟨.point ⟨vals.getD 0 0, vals.getD 1 0⟩⟩
    else if cls = "MULTIPOINT" then
      match x.as_matrix with
      | none => none
      | some m => (matrix_to_points m).map fun ps => ⟨.multiPoint ps⟩
    else if cls = "LINESTRING" then
      match x.as_matrix with
      | none => none
      | some m => (matrix_to_coords m).map fun cs => ⟨.lineString cs⟩
    else if cls = "MULTILINESTRING" then
      match x.as_list with
      | none => none
      | some elems =>
        (mapOption (fun e => e.as_matrix.bind matrix_to_coords) elems).map
          fun ls => ⟨.multiLineString ls⟩
    else if cls = "POLYGON" then
      match x.as_list with
      | none => none
      | some elems => (polygon_inner elems).map fun p => ⟨.polygon p⟩
    else if cls = "MULTIPOLYGON" then
      match x.as_list with
      | none => none
      | some elems =>
        (mapOption (fun e => e.as_list.bind polygon_inner) elems).map
          fun ps => ⟨.multiPolygon ps⟩
    else some ⟨.point ⟨0, 0⟩⟩

/-- src/tosf.rs `from_coord`: a coordinate as the row `[x, y]`. -/
def from_coord (c : Coord) : List f64 := [c.x, c.y]

/-- extendr `RMatrix::new_matrix(nrow, ncol, f)`: an R matrix whose entry at
`(i, j)` is `f i j`, stored column-major. -/
def new_matrix (nrow ncol : Nat) (f : Nat → Nat → f64) : RMatrix :=
  ⟨nrow, ncol, ((List.range ncol).map fun j => (List.range nrow).map fun i => f i j).flatten⟩

/-- The `Vec<[f64; 2]> → RMatrix` step of the encoders:
`RMatrix::new_matrix(rows.len(), 2, |r, c| rows[r][c])`. -/
def rows_to_matrix (rows : List (List f64)) : RMatrix :=
  new_matrix rows.length 2 fun r c => (rows.getD r []).getD c 0

/-- src/tosf.rs `from_point`. -/
def from_point (p : Coord) : Robj :=
  .doubles ["XY", "POINT", "sfg"] (from_coord p)

/-- src/tosf.rs `from_multipoint`. -/
def from_multipoint (cs : List Coord) : Robj :=
  .matrix ["XY", "MULTIPOINT", "sfg"] (rows_to_matrix (cs.map from_coord))

/-- src/tosf.rs `from_linestring`. -/
def from_linestring (cs : List Coord) : Robj :=
  .matrix ["XY", "LINESTRING", "sfg"] (rows_to_matrix (cs.map from_coord))

/-- src/tosf.rs `from_multilinestring`. -/
def from_multilinestring (ls : List (List Coord)) : Robj :=
  .rlist ["XY", "MULTILINESTRING", "sfg"] (ls.map from_linestring)

/-- src/tosf.rs `from_polygon`: the exterior ring is pushed first, the
interior rings follow in order, each encoded by `from_linestring`. -/
def from_polygon (p : PolygonRep) : Robj :=
  .rlist ["XY", "POLYGON", "sfg"] ((p.exterior :: p.interiors).map from_linestring)

/-- src/tosf.rs `from_multipolygon`. -/
def from_multipolygon (ps : List PolygonRep) : Robj :=
  .rlist ["XY", "MULTIPOLYGON", "sfg"] (ps.map from_polygon)

/-- src/tosf.rs `to_sfg`: dispatch on the wrapped `Geometry`; any variant
outside the six supported ones encodes to the `NULL` Robj. -/
def to_sfg (x : Geom) : Robj :=
  match x.geom with
  | .point p => from_point p
  | .multiPoint cs => from_multipoint cs
  | .lineString cs => from_linestring cs
  | .multiLineString ls => from_multilinestring ls
  | .polygon p => from_polygon p
  | .multiPolygon ps => from_multipolygon ps
  | _ => .null

/-- The loop of src/tosf.rs `determine_sfc_class`, with the mutable
`result` as an accumulator: `None` entries are skipped; the first variant
name found seeds `result`; any later mismatch returns the
`"GEOMETRYCOLLECTION"` sentinel at once (the `break`). -/
def determine_sfc_class_go : List (Option Geom) → String → String
  | [], result => result
  | none :: rest, result => determine_sfc_class_go rest result
  | some g :: rest, result =>
    let cls := variantName g.geom
    if result = "" then determine_sfc_class_go rest cls
    else if result ≠ cls then "GEOMETRYCOLLECTION"
    else determine_sfc_class_go rest result

/-- src/tosf.rs `determine_sfc_class`: classify a vector of optional
geometries, starting from the empty accumulator. -/
def determine_sfc_class (x : List (Option Geom)) : String :=
  determine_sfc_class_go x ""

/-! ### Helper lemmas about the coordinate extraction primitives -/

theorem foldl_push {α β : Type} (f : α → β) :
    ∀ (l : List α) (init : List β),
      l.foldl (fun acc i => acc ++ [f i]) init = init ++ l.map f
  | [], init => by simp
  | a :: rest, init => by
    simp only [List.foldl_cons, List.map_cons, foldl_push f rest]
    simp

/-- Both `matrix_to_points` and `matrix_to_coords` agree (the `Point` wrapper
carries no data). -/
theorem matrix_to_points_eq_coords (m : RMatrix) :
    matrix_to_points m = matrix_to_coords m := rfl

/-- The push loop of `matrix_to_coords`, written as a map over row indices. -/
theorem matrix_to_coords_eq (m : RMatrix) (h : m.ncol = 2) :
    matrix_to_coords m
      = some ((List.range m.nrow).map fun i => (⟨m.entry i 0, m.entry i 1⟩ : Coord)) := by
  simp [matrix_to_coords, h, foldl_push]

theorem new_matrix_nrow (n ncol : Nat) (f : Nat → Nat → f64) :
    (new_matrix n ncol f).nrow = n := rfl

theorem new_matrix_data_two (n : Nat) (f : Nat → Nat → f64) :
    (new_matrix n 2 f).data
      = ((List.range n).map fun i => f i 0) ++ ((List.range n).map fun i => f i 1) := by
  have h2 : List.range 2 = [0, 1] := rfl
  simp [new_matrix, h2]

theorem getD_map_range (n i : Nat) (f : Nat → f64) (h : i < n) :
    ((List.range n).map f).getD i 0 = f i := by
  rw [List.getD_eq_getElem?_getD, List.getElem?_map, List.getElem?_range h]
  rfl

theorem new_matrix_entry_left (n : Nat) (f : Nat → Nat → f64) (i : Nat) (h : i < n) :
    (new_matrix n 2 f).entry i 0 = f i 0 := by
  have hlen : ((List.range n).map fun i => f i 0).length = n := by simp
  rw [RMatrix.entry, new_matrix_nrow, new_matrix_data_two, Nat.zero_mul, Nat.zero_add,
    List.getD_append _ _ _ _ (by omega), getD_map_range n i _ h]

theorem new_matrix_entry_right (n : Nat) (f : Nat → Nat → f64) (i : Nat) (h : i < n) :
    (new_matrix n 2 f).entry i 1 = f i 1 := by
  have hlen : ((List.range n).map fun i => f i 0).length = n := by simp
  rw [RMatrix.entry, new_matrix_nrow, new_matrix_data_two, Nat.one_mul,
    List.getD_append_right _ _ _ _ (by omega)]
  rw [hlen, Nat.add_sub_cancel_left]
  exact getD_map_range n i _ h

/-! ### C3 / C4: the column-count contract of the matrix primitives -/

/-- C3: an N-row matrix with exactly 2 columns decodes to exactly N
coordinates, row `r` giving `(m[r,0], m[r,1])`, in row order. -/
theorem matrix_to_coords_spec (m : RMatrix) (h : m.ncol = 2) :
    ∃ cs : List Coord, matrix_to_coords m = some cs ∧ cs.length = m.nrow ∧
      ∀ r : Nat, r < m.nrow → cs[r]? = some ⟨m.entry r 0, m.entry r 1⟩ := by
  refine ⟨_, matrix_to_coords_eq m h, by simp, ?_⟩
  intro r hr
  rw [List.getElem?_map, List.getElem?_range hr]
  rfl

/-- C3 witness: the 2×2 matrix with rows (1,2) and (3,4). -/
theorem matrix_to_coords_spec_witness :
    ∃ cs : List Coord,
      matrix_to_coords ⟨2, 2, [1, 3, 2, 4]⟩ = some cs ∧ cs.length = (2 : Nat) ∧
      ∀ r : Nat, r < 2 →
        cs[r]? = some ⟨RMatrix.entry ⟨2, 2, [1, 3, 2, 4]⟩ r 0, RMatrix.entry ⟨2, 2, [1, 3, 2, 4]⟩ r 1⟩ :=
  matrix_to_coords_spec ⟨2, 2, [1, 3, 2, 4]⟩ rfl

/-- C4: with a column count other than 2, both matrix primitives abort
(the `panic!`) and never produce a value. -/
theorem matrix_wrong_cols (m : RMatrix) (h : m.ncol ≠ 2) :
    matrix_to_coords m = none ∧ matrix_to_points m = none := by
  simp [matrix_to_coords, matrix_to_points, h]

/-- C4 witness: a 3-column matrix and a 1-column matrix are both rejected. -/
theorem matrix_wrong_cols_witness :
    (matrix_to_coords ⟨2, 3, [1, 2, 3, 4, 5, 6]⟩ = none
      ∧ matrix_to_points ⟨2, 3, [1, 2, 3, 4, 5, 6]⟩ = none)
    ∧ (matrix_to_coords ⟨2, 1, [1, 2]⟩ = none
      ∧ matrix_to_points ⟨2, 1, [1, 2]⟩ = none) :=
  ⟨matrix_wrong_cols ⟨2, 3, [1, 2, 3, 4, 5, 6]⟩ (by decide),
   matrix_wrong_cols ⟨2, 1, [1, 2]⟩ (by decide)⟩

/-! ### Round-trip lemmas: decoding an encoded matrix restores the rows -/

theorem map_range_eq_of_getElem (cs : List Coord) (g : Nat → Coord)
    (h : ∀ i : Nat, ∀ hi : i < cs.length, g i = cs.get ⟨i, hi⟩) :
    (List.range cs.length).map g = cs := by
  apply List.ext_getElem?
  intro k
  rw [List.getElem?_map]
  by_cases hk : k < cs.length
  · rw [List.getElem?_range hk, List.getElem?_eq_getElem hk]
    simp [h k hk]
  · rw [List.getElem?_eq_none (by simpa using Nat.le_of_not_lt hk),
      List.getElem?_eq_none (Nat.le_of_not_lt hk)]
    rfl

/-- Decoding the matrix the encoders build from a coordinate list restores
exactly that list. -/
theorem matrix_to_coords_rows (cs : List Coord) :
    matrix_to_coords (rows_to_matrix (cs.map from_coord)) = some cs := by
  rw [show rows_to_matrix (cs.map from_coord)
        = new_matrix cs.length 2 (fun r c => ((cs.map from_coord).getD r []).getD c 0) by
      simp [rows_to_matrix]]
  rw [matrix_to_coords_eq _ rfl, new_matrix_nrow]
  congr 1
  apply map_range_eq_of_getElem
  intro i hi
  have hrow : (cs.map from_coord).getD i [] = from_coord (cs.get ⟨i, hi⟩) := by
    rw [List.getD_eq_getElem?_getD, List.getElem?_map, List.getElem?_eq_getElem hi]
    rfl
  rw [new_matrix_entry_left _ _ _ hi, new_matrix_entry_right _ _ _ hi, hrow]
  rfl

theorem matrix_to_points_rows (cs : List Coord) :
    matrix_to_points (rows_to_matrix (cs.map from_coord)) = some cs := by
  rw [matrix_to_points_eq_coords]
  exact matrix_to_coords_rows cs

/-! ### Round-trip lemmas: list-shaped payloads -/

theorem mapOption_linestrings (ls : List (List Coord)) :
    mapOption (fun e => e.as_matrix.bind matrix_to_coords) (ls.map from_linestring)
      = some ls := by
  induction ls with
  | nil => rfl
  | cons hd tl ih =>
    have hhd : (from_linestring hd).as_matrix.bind matrix_to_coords = some hd := by
      rw [show (from_linestring hd).as_matrix
          = some (rows_to_matrix (hd.map from_coord)) from rfl]
      rw [Option.some_bind]
      exact matrix_to_coords_rows hd
    simp [mapOption, hhd, ih]

theorem isClosedRing_closeRing_eq (l : List Coord) (h : isClosedRing l = true) :
    closeRing l = l := by
  simp [closeRing, h]

theorem Polygon_new_of_closed (p : PolygonRep) (h : p.ringsClosed = true) :
    Polygon_new p.exterior p.interiors = p := by
  rw [PolygonRep.ringsClosed, Bool.and_eq_true] at h
  obtain ⟨h1, h2⟩ := h
  rw [Polygon_new, isClosedRing_closeRing_eq _ h1]
  have hmap : p.interiors.map closeRing = p.interiors := by
    rw [show p.interiors.map closeRing = p.interiors.map id from
        List.map_congr_left fun r hr =>
          isClosedRing_closeRing_eq r (List.all_eq_true.mp h2 r hr),
      List.map_id]
  rw [hmap]

theorem polygon_inner_cons (x0 : Robj) (rest : List Robj) :
    polygon_inner (x0 :: rest)
      = (x0.as_matrix).bind fun m0 =>
        (matrix_to_coords m0).bind fun exterior =>
        (mapOption (fun e => e.as_matrix.bind matrix_to_coords) rest).map fun interiors =>
        Polygon_new exterior interiors := rfl

theorem polygon_inner_from (p : PolygonRep) :
    polygon_inner ((p.exterior :: p.interiors).map from_linestring)
      = some (Polygon_new p.exterior p.interiors) := by
  rw [List.map_cons, polygon_inner_cons,
    show (from_linestring p.exterior).as_matrix
        = some (rows_to_matrix (p.exterior.map from_coord)) from rfl,
    Option.some_bind, matrix_to_coords_rows, Option.some_bind, mapOption_linestrings]
  rfl

theorem mapOption_polygons (ps : List PolygonRep) :
    mapOption (fun e => e.as_list.bind polygon_inner) (ps.map from_polygon)
      = some (ps.map fun p => Polygon_new p.exterior p.interiors) := by
  induction ps with
  | nil => rfl
  | cons hd tl ih =>
    have hhd : (from_polygon hd).as_list.bind polygon_inner
        = some (Polygon_new hd.exterior hd.interiors) := by
      rw [show (from_polygon hd).as_list
          = some ((hd.exterior :: hd.interiors).map from_linestring) from rfl]
      rw [Option.some_bind]
      exact polygon_inner_from hd
    simp [mapOption, hhd, ih]

/-! ### Per-tag evaluation equations of the fallible decoder (all `rfl`) -/

theorem sfg_to_geom_multipoint_tag (c1 c3 : String) (m : RMatrix) :
    sfg_to_geom (.matrix [c1, "MULTIPOINT", c3] m)
      = (matrix_to_points m).map fun ps => Except.ok ⟨.multiPoint ps⟩ := rfl

theorem sfg_to_geom_linestring_tag (c1 c3 : String) (m : RMatrix) :
    sfg_to_geom (.matrix [c1, "LINESTRING", c3] m)
      = (matrix_to_coords m).map fun cs => Except.ok ⟨.lineString cs⟩ := rfl

theorem sfg_to_geom_multilinestring_tag (c1 c3 : String) (elems : List Robj) :
    sfg_to_geom (.rlist [c1, "MULTILINESTRING", c3] elems)
      = (mapOption (fun e => e.as_matrix.bind matrix_to_coords) elems).map
          fun ls => Except.ok ⟨.multiLineString ls⟩ := rfl

theorem sfg_to_geom_polygon_tag (c1 c3 : String) (elems : List Robj) :
    sfg_to_geom (.rlist [c1, "POLYGON", c3] elems)
      = (polygon_inner elems).map fun p => Except.ok ⟨.polygon p⟩ := rfl

theorem sfg_to_geom_multipolygon_tag (c1 c3 : String) (elems : List Robj) :
    sfg_to_geom (.rlist [c1, "MULTIPOLYGON", c3] elems)
      = (mapOption (fun e => e.as_list.bind polygon_inner) elems).map
          fun ps => Except.ok ⟨.multiPolygon ps⟩ := rfl

/-! ### C1: decode ∘ encode is the identity on supported geometries -/

/-- C1: for every `Geom` holding one of the six supported variants (whose
polygon rings are closed, the invariant geo_types `Polygon::new` gives every
constructible polygon), `sfg_to_geom (to_sfg g)` succeeds with exactly `g`:
every coordinate and every sequence order is preserved. -/
theorem decode_encode_roundtrip (g : Geom) (hsup : g.isSupported = true)
    (hcl : g.ringsClosed = true) :
    sfg_to_geom (to_sfg g) = some (Except.ok g) := by
  obtain ⟨geo⟩ := g
  cases geo with
  | point c => rfl
  | multiPoint cs =>
    show sfg_to_geom (from_multipoint cs) = _
    rw [from_multipoint, sfg_to_geom_multipoint_tag, matrix_to_points_rows]
    rfl
  | lineString cs =>
    show sfg_to_geom (from_linestring cs) = _
    rw [from_linestring, sfg_to_geom_linestring_tag, matrix_to_coords_rows]
    rfl
  | multiLineString ls =>
    show sfg_to_geom (from_multilinestring ls) = _
    rw [from_multilinestring, sfg_to_geom_multilinestring_tag, mapOption_linestrings]
    rfl
  | polygon p =>
    show sfg_to_geom (from_polygon p) = _
    rw [from_polygon, sfg_to_geom_polygon_tag, polygon_inner_from,
      Polygon_new_of_closed p (by simpa [Geom.ringsClosed] using hcl)]
    rfl
  | multiPolygon ps =>
    show sfg_to_geom (from_multipolygon ps) = _
    rw [from_multipolygon, sfg_to_geom_multipolygon_tag, mapOption_polygons]
    have hall : ∀ p ∈ ps, PolygonRep.ringsClosed p = true := by
      simpa [Geom.ringsClosed, List.all_eq_true] using hcl
    rw [show (ps.map fun p => Polygon_new p.exterior p.interiors) = ps from by
      rw [show (ps.map fun p => Polygon_new p.exterior p.interiors) = ps.map id from
          List.map_congr_left fun p hp => Polygon_new_of_closed p (hall p hp),
        List.map_id]]
    rfl
  | line a b => simp [Geom.isSupported] at hsup
  | geometryCollection gs => simp [Geom.isSupported] at hsup
  | rect lo hi => simp [Geom.isSupported] at hsup
  | triangle a b c => simp [Geom.isSupported] at hsup

/-- C1 witness: the spec's concrete polygon scenario (4-coordinate closed
exterior, one 4-coordinate closed interior ring) round-trips exactly. -/
theorem decode_encode_roundtrip_witness :
    sfg_to_geom (to_sfg ⟨.polygon ⟨[⟨0, 0⟩, ⟨4, 0⟩, ⟨4, 4⟩, ⟨0, 0⟩],
        [[⟨1, 1⟩, ⟨2, 1⟩, ⟨2, 2⟩, ⟨1, 1⟩]]⟩⟩)
      = some (Except.ok ⟨.polygon ⟨[⟨0, 0⟩, ⟨4, 0⟩, ⟨4, 4⟩, ⟨0, 0⟩],
        [[⟨1, 1⟩, ⟨2, 1⟩, ⟨2, 2⟩, ⟨1, 1⟩]]⟩⟩) :=
  decode_encode_roundtrip
    ⟨.polygon ⟨[⟨0, 0⟩, ⟨4, 0⟩, ⟨4, 4⟩, ⟨0, 0⟩], [[⟨1, 1⟩, ⟨2, 1⟩, ⟨2, 2⟩, ⟨1, 1⟩]]⟩⟩
    rfl rfl

/-! ### Classifier lemmas -/

theorem variantName_ne_empty (geo : Geometry) : variantName geo ≠ "" := by
  cases geo <;> simp [variantName]

theorem go_all_eq : ∀ (x : List (Option Geom)) (r : String), r ≠ "" →
    (∀ g : Geom, some g ∈ x → variantName g.geom = r) →
    determine_sfc_class_go x r = r
  | [], _, _, _ => rfl
  | none :: tl, r, hr, h =>
    go_all_eq tl r hr fun g hg => h g (List.mem_cons_of_mem _ hg)
  | some g :: tl, r, hr, h => by
    have hg : variantName g.geom = r := h g (List.mem_cons_self _ _)
    show (if r = "" then determine_sfc_class_go tl (variantName g.geom)
      else if r ≠ variantName g.geom then "GEOMETRYCOLLECTION"
      else determine_sfc_class_go tl r) = r
    rw [if_neg hr, hg, if_neg (by simp)]
    exact go_all_eq tl r hr fun g2 hg2 => h g2 (List.mem_cons_of_mem _ hg2)

theorem go_homog : ∀ (x : List (Option Geom)) (v : String),
    (∀ g : Geom, some g ∈ x → variantName g.geom = v) →
    (∃ g : Geom, some g ∈ x) →
    determine_sfc_class_go x "" = v
  | [], _, _, hex => absurd hex.choose_spec (List.not_mem_nil _)
  | none :: tl, v, h, hex => by
    have hex2 : ∃ g : Geom, some g ∈ tl := by
      obtain ⟨g, hg⟩ := hex
      rcases List.mem_cons.mp hg with h1 | h1
      · exact absurd h1 (by simp)
      · exact ⟨g, h1⟩
    exact go_homog tl v (fun g hg => h g (List.mem_cons_of_mem _ hg)) hex2
  | some g :: tl, v, h, _ => by
    have hg : variantName g.geom = v := h g (List.mem_cons_self _ _)
    have hv : v ≠ "" := hg ▸ variantName_ne_empty g.geom
    show (if ("" : String) = "" then determine_sfc_class_go tl (variantName g.geom)
      else if ("" : String) ≠ variantName g.geom then "GEOMETRYCOLLECTION"
      else determine_sfc_class_go tl "") = v
    rw [if_pos rfl, hg]
    exact go_all_eq tl v hv fun g2 hg2 => h g2 (List.mem_cons_of_mem _ hg2)

theorem go_mismatch : ∀ (x : List (Option Geom)) (r : String), r ≠ "" →
    (∃ g : Geom, some g ∈ x ∧ variantName g.geom ≠ r) →
    determine_sfc_class_go x r = "GEOMETRYCOLLECTION"
  | [], _, _, hex => absurd hex.choose_spec.1 (List.not_mem_nil _)
  | none :: tl, r, hr, hex => by
    obtain ⟨g, hg, hne⟩ := hex
    have htl : some g ∈ tl := by
      rcases List.mem_cons.mp hg with h1 | h1
      · exact absurd h1 (by simp)
      · exact h1
    exact go_mismatch tl r hr ⟨g, htl, hne⟩
  | some g0 :: tl, r, hr, hex => by
    obtain ⟨g, hg, hne⟩ := hex
    show (if r = "" then determine_sfc_class_go tl (variantName g0.geom)
      else if r ≠ variantName g0.geom then "GEOMETRYCOLLECTION"
      else determine_sfc_class_go tl r) = "GEOMETRYCOLLECTION"
    rw [if_neg hr]
    by_cases h0 : variantName g0.geom = r
    · rw [h0, if_neg (by simp)]
      have htl : some g ∈ tl := by
        rcases List.mem_cons.mp hg with h1 | h1
        · exact absurd (h0 ▸ congrArg (fun o : Option Geom =>
            variantName ((o.getD ⟨.point ⟨0, 0⟩⟩).geom)) h1) hne
        · exact h1
      exact go_mismatch tl r hr ⟨g, htl, hne⟩
    · rw [if_pos (show r ≠ variantName g0.geom from fun he => h0 he.symm)]

theorem go_empty_mixed : ∀ (x : List (Option Geom)),
    (∃ g1 g2 : Geom, some g1 ∈ x ∧ some g2 ∈ x
      ∧ variantName g1.geom ≠ variantName g2.geom) →
    determine_sfc_class_go x "" = "GEOMETRYCOLLECTION"
  | [], hex => absurd hex.choose_spec.choose_spec.1 (List.not_mem_nil _)
  | none :: tl, hex => by
    obtain ⟨g1, g2, h1, h2, hne⟩ := hex
    have h1t : some g1 ∈ tl := by
      rcases List.mem_cons.mp h1 with h | h
      · exact absurd h (by simp)
      · exact h
    have h2t : some g2 ∈ tl := by
      rcases List.mem_cons.mp h2 with h | h
      · exact absurd h (by simp)
      · exact h
    exact go_empty_mixed tl ⟨g1, g2, h1t, h2t, hne⟩
  | some g0 :: tl, hex => by
    obtain ⟨g1, g2, h1, h2, hne⟩ := hex
    show (if ("" : String) = "" then determine_sfc_class_go tl (variantName g0.geom)
      else if ("" : String) ≠ variantName g0.geom then "GEOMETRYCOLLECTION"
      else determine_sfc_class_go tl "") = "GEOMETRYCOLLECTION"
    rw [if_pos rfl]
    have key : ∃ g : Geom, some g ∈ tl ∧ variantName g.geom ≠ variantName g0.geom := by
      by_cases e1 : variantName g1.geom = variantName g0.geom
      · have e2 : variantName g2.geom ≠ variantName g0.geom := fun e2 =>
          hne (e1.trans e2.symm)
        refine ⟨g2, ?_, e2⟩
        rcases List.mem_cons.mp h2 with h | h
        · exact absurd (congrArg (fun o : Option Geom =>
            variantName ((o.getD ⟨.point ⟨0, 0⟩⟩).geom)) h) e2
        · exact h
      · refine ⟨g1, ?_, e1⟩
        rcases List.mem_cons.mp h1 with h | h
        · exact absurd (congrArg (fun o : Option Geom =>
            variantName ((o.getD ⟨.point ⟨0, 0⟩⟩).geom)) h) e1
        · exact h
    exact go_mismatch tl (variantName g0.geom) (variantName_ne_empty _) key

theorem go_drop_nulls : ∀ (x : List (Option Geom)) (r : String),
    determine_sfc_class_go x r = determine_sfc_class_go ((x.filterMap id).map some) r
  | [], _ => rfl
  | none :: tl, r => by
    rw [show ((none :: tl : List (Option Geom)).filterMap id) = tl.filterMap id from by
      simp [List.filterMap_cons]]
    exact go_drop_nulls tl r
  | some g :: tl, r => by
    rw [show ((some g :: tl : List (Option Geom)).filterMap id)
        = g :: tl.filterMap id from by simp [List.filterMap_cons]]
    show (if r = "" then determine_sfc_class_go tl (variantName g.geom)
      else if r ≠ variantName g.geom then "GEOMETRYCOLLECTION"
      else determine_sfc_class_go tl r)
      = (if r = "" then determine_sfc_class_go ((tl.filterMap id).map some) (variantName g.geom)
      else if r ≠ variantName g.geom then "GEOMETRYCOLLECTION"
      else determine_sfc_class_go ((tl.filterMap id).map some) r)
    rw [go_drop_nulls tl (variantName g.geom), go_drop_nulls tl r]

/-! ### C2 (amended): classifier homogeneity, mixed sentinel, null skipping -/

/-- C2 counterexample: the classifier's strings are not the lowercase
`"point"` / `"geometrycollection"` the claim states — the homogeneous point
collection classifies as `"Point"` and the mixed collection as
`"GEOMETRYCOLLECTION"`. -/
theorem determine_sfc_class_case_counterexample :
    determine_sfc_class [some ⟨.point ⟨0, 0⟩⟩, some ⟨.point ⟨1, 1⟩⟩, none] ≠ "point"
    ∧ determine_sfc_class [some ⟨.point ⟨0, 0⟩⟩, some ⟨.point ⟨1, 1⟩⟩, none] = "Point"
    ∧ determine_sfc_class [some ⟨.point ⟨0, 0⟩⟩, some ⟨.lineString [⟨0, 0⟩, ⟨1, 1⟩]⟩]
        ≠ "geometrycollection"
    ∧ determine_sfc_class [some ⟨.point ⟨0, 0⟩⟩, some ⟨.lineString [⟨0, 0⟩, ⟨1, 1⟩]⟩]
        = "GEOMETRYCOLLECTION" := by
  refine ⟨by decide, by decide, by decide, by decide⟩

/-- C2 (amended): for a sequence of optional `Geom`s with at least one
non-null element, if every non-null element shares one variant name the
classifier returns that name (capitalized as the geometry's debug rendering,
e.g. `"Point"`); if two non-null elements have different variants it returns
the sentinel `"GEOMETRYCOLLECTION"`; null slots are skipped and never affect
the result (dropping them leaves the classification unchanged). -/
theorem determine_sfc_class_correct (x : List (Option Geom))
    (hne : ∃ g : Geom, some g ∈ x) :
    (∀ v : String, (∀ g : Geom, some g ∈ x → variantName g.geom = v) →
      determine_sfc_class x = v)
    ∧ ((∃ g1 g2 : Geom, some g1 ∈ x ∧ some g2 ∈ x
        ∧ variantName g1.geom ≠ variantName g2.geom) →
      determine_sfc_class x = "GEOMETRYCOLLECTION")
    ∧ determine_sfc_class x = determine_sfc_class ((x.filterMap id).map some) := by
  refine ⟨fun v hv => go_homog x v hv hne, fun hmix => go_empty_mixed x hmix,
    go_drop_nulls x ""⟩

/-- C2 witness: `[Point(0,0), Point(1,1), null]` classifies as `"Point"`,
and `[Point(0,0), LineString(...)]` as `"GEOMETRYCOLLECTION"`. -/
theorem determine_sfc_class_correct_witness :
    determine_sfc_class [some ⟨.point ⟨0, 0⟩⟩, some ⟨.point ⟨1, 1⟩⟩, none] = "Point"
    ∧ determine_sfc_class [some ⟨.point ⟨0, 0⟩⟩, some ⟨.lineString [⟨0, 0⟩, ⟨1, 1⟩]⟩]
        = "GEOMETRYCOLLECTION" := by
  constructor
  · exact (determine_sfc_class_correct _ ⟨⟨.point ⟨0, 0⟩⟩, List.mem_cons_self _ _⟩).1
      "Point" (by
        intro g hg
        rcases List.mem_cons.mp hg with h | hg2
        · obtain rfl := Option.some_injective _ h
          rfl
        rcases List.mem_cons.mp hg2 with h | hg3
        · obtain rfl := Option.some_injective _ h
          rfl
        · simp at hg3)
  · exact (determine_sfc_class_correct _ ⟨⟨.point ⟨0, 0⟩⟩, List.mem_cons_self _ _⟩).2.1
      ⟨⟨.point ⟨0, 0⟩⟩, ⟨.lineString [⟨0, 0⟩, ⟨1, 1⟩]⟩, List.mem_cons_self _ _,
        List.mem_cons_of_mem _ (List.mem_cons_self _ _), by simp [variantName]⟩

/-! ### C10: an all-null (or empty) sequence classifies as the empty string -/

theorem go_all_null : ∀ (x : List (Option Geom)) (r : String),
    (∀ g ∈ x, g = none) → determine_sfc_class_go x r = r
  | [], _, _ => rfl
  | none :: tl, r, h =>
    go_all_null tl r fun g hg => h g (List.mem_cons_of_mem _ hg)
  | some g :: tl, _, h => absurd (h (some g) (List.mem_cons_self _ _)) (by simp)

/-- C10: a sequence with no non-null element (empty or all-null) classifies
as the empty string, with no failure. -/
theorem determine_sfc_class_all_null (x : List (Option Geom))
    (h : ∀ g ∈ x, g = none) : determine_sfc_class x = "" :=
  go_all_null x "" h

/-- C10 witness: the empty sequence and an all-null sequence. -/
theorem determine_sfc_class_all_null_witness :
    determine_sfc_class [] = "" ∧ determine_sfc_class [none, none] = "" :=
  ⟨determine_sfc_class_all_null [] (by simp),
   determine_sfc_class_all_null [none, none] (by simp)⟩

/-! ### C5: polygon ring ordering on decode and encode -/

theorem mapOption_matrix_elems (mcls : List String) (ms : List RMatrix) :
    mapOption (fun e => e.as_matrix.bind matrix_to_coords) (ms.map (Robj.matrix mcls))
      = mapOption matrix_to_coords ms := by
  induction ms with
  | nil => rfl
  | cons hd tl ih =>
    have hhd : (Robj.matrix mcls hd).as_matrix.bind matrix_to_coords
        = matrix_to_coords hd := rfl
    simp only [List.map_cons, mapOption, hhd, ih]

/-- C5: a POLYGON payload of `n ≥ 1` matrices decodes with the matrix at
index 0 as the exterior ring and the matrices at indices `1..n-1`, in order,
as the interior rings (so a single-element payload gives zero interior
rings), combined by geo_types `Polygon::new`; re-encoding emits the exterior
ring first and then the interior rings in their stored order. -/
theorem polygon_ring_order (cls mcls : List String) (M0 : RMatrix)
    (Mrest : List RMatrix) (ext : List Coord) (ints : List (List Coord))
    (p : PolygonRep)
    (hcls : cls[1]? = some "POLYGON")
    (h0 : matrix_to_coords M0 = some ext)
    (hr : mapOption matrix_to_coords Mrest = some ints) :
    sfg_to_geom (Robj.rlist cls ((M0 :: Mrest).map (Robj.matrix mcls)))
      = some (Except.ok ⟨.polygon (Polygon_new ext ints)⟩)
    ∧ to_sfg ⟨.polygon p⟩
      = Robj.rlist ["XY", "POLYGON", "sfg"]
          ((p.exterior :: p.interiors).map from_linestring) := by
  constructor
  · unfold sfg_to_geom
    rw [show (Robj.rlist cls ((M0 :: Mrest).map (Robj.matrix mcls))).classOf = cls
      from rfl, hcls]
    rw [show (Robj.rlist cls ((M0 :: Mrest).map (Robj.matrix mcls))).as_list
      = some ((M0 :: Mrest).map (Robj.matrix mcls)) from rfl]
    rw [show ((M0 :: Mrest).map (Robj.matrix mcls))
      = Robj.matrix mcls M0 :: Mrest.map (Robj.matrix mcls) from rfl]
    simp only [reduceIte, String.reduceEq, Option.map_eq_map]
    rw [polygon_inner_cons,
      show (Robj.matrix mcls M0).as_matrix = some M0 from rfl]
    simp [h0, mapOption_matrix_elems, hr]
  · rfl

/-- C5 witness: the spec's concrete scenario — a 4-row closed exterior
matrix and one 4-row closed interior matrix (column-major data). -/
theorem polygon_ring_order_witness :
    sfg_to_geom (Robj.rlist ["XY", "POLYGON", "sfg"]
        ([⟨4, 2, [0, 4, 4, 0, 0, 0, 4, 0]⟩, ⟨4, 2, [1, 2, 2, 1, 1, 1, 2, 1]⟩].map
          (Robj.matrix ["XY", "LINESTRING", "sfg"])))
      = some (Except.ok ⟨.polygon (Polygon_new [⟨0, 0⟩, ⟨4, 0⟩, ⟨4, 4⟩, ⟨0, 0⟩]
          [[⟨1, 1⟩, ⟨2, 1⟩, ⟨2, 2⟩, ⟨1, 1⟩]])⟩)
    ∧ to_sfg ⟨.polygon ⟨[⟨0, 0⟩, ⟨4, 0⟩, ⟨4, 4⟩, ⟨0, 0⟩],
          [[⟨1, 1⟩, ⟨2, 1⟩, ⟨2, 2⟩, ⟨1, 1⟩]]⟩⟩
      = Robj.rlist ["XY", "POLYGON", "sfg"]
          (([⟨0, 0⟩, ⟨4, 0⟩, ⟨4, 4⟩, ⟨0, 0⟩] :: [[⟨1, 1⟩, ⟨2, 1⟩, ⟨2, 2⟩, ⟨1, 1⟩]]).map
            from_linestring) :=
  polygon_ring_order ["XY", "POLYGON", "sfg"] ["XY", "LINESTRING", "sfg"]
    ⟨4, 2, [0, 4, 4, 0, 0, 0, 4, 0]⟩ [⟨4, 2, [1, 2, 2, 1, 1, 1, 2, 1]⟩]
    [⟨0, 0⟩, ⟨4, 0⟩, ⟨4, 4⟩, ⟨0, 0⟩] [[⟨1, 1⟩, ⟨2, 1⟩, ⟨2, 2⟩, ⟨1, 1⟩]]
    ⟨[⟨0, 0⟩, ⟨4, 0⟩, ⟨4, 4⟩, ⟨0, 0⟩], [[⟨1, 1⟩, ⟨2, 1⟩, ⟨2, 2⟩, ⟨1, 1⟩]]⟩
    rfl (by decide) (by decide)

/-! ### C6 / C7: behavior of both decoders on an unsupported tag -/

/-- C6: whenever the second class tag exists but is none of the six
supported names (`GEOMETRYCOLLECTION` included), the fallible decoder
returns the typed "Null or unsupported geometry type" error — never a
geometry. -/
theorem sfg_to_geom_unsupported_tag (x : Robj) (t : String)
    (h1 : x.classOf[1]? = some t) (h2 : t ∉ supportedTags) :
    sfg_to_geom x = some (Except.error "Null or unsupported geometry type") := by
  simp only [supportedTags, List.mem_cons, List.not_mem_nil, or_false, not_or] at h2
  obtain ⟨n1, n2, n3, n4, n5, n6⟩ := h2
  unfold sfg_to_geom
  rw [h1]
  simp [n1, n2, n3, n4, n5, n6]

/-- C6 witness: a GEOMETRYCOLLECTION-tagged object decodes to the typed
error. -/
theorem sfg_to_geom_unsupported_tag_witness :
    sfg_to_geom (Robj.rlist ["XY", "GEOMETRYCOLLECTION", "sfg"] [])
      = some (Except.error "Null or unsupported geometry type") :=
  sfg_to_geom_unsupported_tag (Robj.rlist ["XY", "GEOMETRYCOLLECTION", "sfg"] [])
    "GEOMETRYCOLLECTION" rfl (by decide)

/-- C7: on the same unsupported tags, the infallible decoder returns the
degenerate default `Point::new(0.0, 0.0)` instead of failing. -/
theorem sfg_to_geometry_unsupported_tag (x : Robj) (t : String)
    (h1 : x.classOf[1]? = some t) (h2 : t ∉ supportedTags) :
    sfg_to_geometry x = some ⟨.point ⟨0, 0⟩⟩ := by
  simp only [supportedTags, List.mem_cons, List.not_mem_nil, or_false, not_or] at h2
  obtain ⟨n1, n2, n3, n4, n5, n6⟩ := h2
  unfold sfg_to_geometry
  rw [h1]
  simp [n1, n2, n3, n4, n5, n6]

/-- C7 witness: a GEOMETRYCOLLECTION-tagged object maps to `Point(0, 0)`. -/
theorem sfg_to_geometry_unsupported_tag_witness :
    sfg_to_geometry (Robj.rlist ["XY", "GEOMETRYCOLLECTION", "sfg"] [])
      = some ⟨.point ⟨0, 0⟩⟩ :=
  sfg_to_geometry_unsupported_tag (Robj.rlist ["XY", "GEOMETRYCOLLECTION", "sfg"] [])
    "GEOMETRYCOLLECTION" rfl (by decide)

/-! ### C8: the encoder's NULL marker characterizes unsupported variants -/

/-- C8: `to_sfg` returns the NULL Robj exactly on the geometry variants
outside the six supported ones (Line, Rect, Triangle, GeometryCollection);
on every supported variant it returns a non-NULL encoded object, and it
never errors (it is total). -/
theorem to_sfg_null_iff (g : Geom) : to_sfg g = Robj.null ↔ g.isSupported = false := by
  obtain ⟨geo⟩ := g
  cases geo <;>
    simp [to_sfg, Geom.isSupported, from_point, from_multipoint, from_linestring,
      from_multilinestring, from_polygon, from_multipolygon]

/-! ### C9: POINT payloads read only the first two scalars -/

/-- C9: a POINT-tagged doubles payload of length at least 2 decodes, in both
decoders, to `Point(payload[0], payload[1])`; extra values beyond the first
two are silently ignored. -/
theorem point_payload_first_two (cls : List String) (vals : List f64)
    (h1 : cls[1]? = some "POINT") (h2 : 2 ≤ vals.length) :
    sfg_to_geom (.doubles cls vals)
      = some (Except.ok ⟨.point ⟨vals.getD 0 0, vals.getD 1 0⟩⟩)
    ∧ sfg_to_geometry (.doubles cls vals)
      = some ⟨.point ⟨vals.getD 0 0, vals.getD 1 0⟩⟩ := by
  have hlt : ¬(vals.length < 2) := Nat.not_lt.mpr h2
  constructor
  · unfold sfg_to_geom
    rw [show (Robj.doubles cls vals).classOf = cls from rfl, h1]
    simp [Robj.as_doubles, hlt]
  · unfold sfg_to_geometry
    rw [show (Robj.doubles cls vals).classOf = cls from rfl, h1]
    simp [Robj.as_doubles, hlt]

/-- C9 witness: the length-3 payload `[1, 2, 3]` is accepted and decodes to
`Point(1, 2)` in both decoders, the third value ignored. -/
theorem point_payload_first_two_witness :
    sfg_to_geom (.doubles ["XY", "POINT", "sfg"] [1, 2, 3])
      = some (Except.ok ⟨.point ⟨(1 : f64), 2⟩⟩)
    ∧ sfg_to_geometry (.doubles ["XY", "POINT", "sfg"] [1, 2, 3])
      = some ⟨.point ⟨(1 : f64), 2⟩⟩ :=
  point_payload_first_two ["XY", "POINT", "sfg"] [1, 2, 3] rfl (by decide)

end Sfconversions
